import Mathlib

/-!
Shallow embedding of `graphql.go` (package `graphql`, the client for the
GraphQL HTTP protocol).  The file models, faithfully to the Go source:

* the outbound request built by `Client.Do` (lines 50-66): an HTTP POST with
  JSON body `{"query": ..., "variables": ...}` where `variables` carries the
  Go tag `omitempty`, and the `Content-Type: application/json` header;
* the status check (lines 72-75): `resp.StatusCode != http.StatusOK` (200);
* decoding the response body into the anonymous struct
  `{ Data *json.RawMessage; Errors errors }` (lines 76-85) with Go
  `encoding/json` semantics: an absent or `null` `data` field leaves the
  pointer nil, any other JSON value is captured raw; `errors` must be absent,
  `null`, or an array of error objects; unknown keys are ignored; field names
  match case-insensitively; decoding JSON `null` into a struct or string is a
  no-op;
* the tail of `Client.Do` (lines 86-101): decode the data payload (merge or
  replace mode) when the pointer is non-nil, return the decode error on
  failure, otherwise return `out.Errors` when non-empty, else nil;
* the `errors` type and its `Error` method (lines 104-119), which reads
  `e[0].Message` and would panic (index out of range) on an empty slice —
  modelled by returning `none` in that case;
* `Client.Query` / `Client.Mutate` (lines 35-46), which construct a document
  from the destination shape and call `Do` with `merge = false`.

The payload decoders `jsonutil.UnmarshalGraphQL` / `MergeUnmarshalGraphQL`
live in `internal/jsonutil`, outside this file's source; `Do` only selects
between them and inspects success/failure, so they are abstract parameters
`(JValue → σ → σ × Option ε)` returning the (possibly partially written)
destination shape and an optional error, exactly the observable interface
`Do` uses.
-/

/-- A JSON value; numbers are modelled as integers (no claim here depends on
fractional parts). -/
inductive JValue where
  | null : JValue
  | bool (b : Bool) : JValue
  | num (n : Int) : JValue
  | str (s : String) : JValue
  | arr (elems : List JValue) : JValue
  | obj (fields : List (String × JValue)) : JValue

/-- A raw response body: `none` stands for bytes that are not syntactically
valid JSON (on which `json.Decoder.Decode` fails), `some v` for bytes whose
first JSON value is `v`. -/
abbrev Body := Option JValue

/-- One source location inside an element of the `errors` array
(Go: the anonymous struct with fields `Line`, `Column`). -/
structure ErrorLocation where
  Line : Int
  Column : Int
deriving Repr, DecidableEq

/-- One element of the GraphQL `errors` array (Go: the element struct of
`type errors []struct{ Message string; Locations [...] }`). -/
structure GraphQLError where
  Message : String
  Locations : List ErrorLocation
deriving Repr, DecidableEq

/-- Go: `type errors []struct{...}`, the "errors" array of a response. -/
abbrev Errors := List GraphQLError

/-- Go: `func (e errors) Error() string { return e[0].Message }`.
`e[0]` panics on an empty slice; the panic is modelled as `none`. -/
def Errors.Error : Errors → Option String
  | [] => none
  | e :: _ => some e.Message

/-- The anonymous struct `Do` decodes the response body into
(Go: `struct { Data *json.RawMessage; Errors errors }`).
`Data = none` models a nil pointer (JSON `data` absent or `null`). -/
structure Envelope where
  Data : Option JValue
  Errors : Errors

/-- ASCII lower-casing of one character, for case-insensitive JSON key
matching. -/
def lowerChar (c : Char) : Char :=
  if 65 ≤ c.toNat ∧ c.toNat ≤ 90 then Char.ofNat (c.toNat + 32) else c

/-- Case-insensitive folding of a JSON object key (Go `encoding/json`
matches struct field names case-insensitively; the field names here are
ASCII, so ASCII folding is exact). -/
def lowerKey (s : String) : String := ⟨s.data.map lowerChar⟩

/-- Decoding a JSON value into the `*json.RawMessage` field: JSON `null`
sets the pointer to nil, any other value is captured verbatim. -/
def rawMessagePtr : JValue → Option JValue
  | .null => none
  | v => some v

/-- Decode the fields of one `errors` element's `locations` entry into an
`ErrorLocation`, Go-style: keys match case-insensitively, `null` is a no-op,
a non-number for `line`/`column` is a type error, unknown keys are ignored,
later duplicate keys overwrite earlier ones. -/
def decodeLocationFields : List (String × JValue) → ErrorLocation →
    Except String ErrorLocation
  | [], l => .ok l
  | (k, v) :: rest, l =>
    if lowerKey k = "line" then
      match v with
      | .null => decodeLocationFields rest l
      | .num n => decodeLocationFields rest { l with Line := n }
      | _ => .error "cannot unmarshal value into field Line of type int"
    else if lowerKey k = "column" then
      match v with
      | .null => decodeLocationFields rest l
      | .num n => decodeLocationFields rest { l with Column := n }
      | _ => .error "cannot unmarshal value into field Column of type int"
    else decodeLocationFields rest l

/-- Decode one element of a `locations` array.  Go zero value on `null`,
type error on any non-object non-null value. -/
def decodeLocation : JValue → Except String ErrorLocation
  | .null => .ok ⟨0, 0⟩
  | .obj fs => decodeLocationFields fs ⟨0, 0⟩
  | _ => .error "cannot unmarshal value into location struct"

/-- Decode the fields of one `errors` element, Go-style (see
`decodeLocationFields` for the conventions). -/
def decodeErrorFields : List (String × JValue) → GraphQLError →
    Except String GraphQLError
  | [], e => .ok e
  | (k, v) :: rest, e =>
    if lowerKey k = "message" then
      match v with
      | .null => decodeErrorFields rest e
      | .str s => decodeErrorFields rest { e with Message := s }
      | _ => .error "cannot unmarshal value into field Message of type string"
    else if lowerKey k = "locations" then
      match v with
      | .null => decodeErrorFields rest e
      | .arr vs => do
          let ls ← vs.mapM decodeLocation
          decodeErrorFields rest { e with Locations := ls }
      | _ => .error "cannot unmarshal value into field Locations"
    else decodeErrorFields rest e

/-- Decode one element of the `errors` array. -/
def decodeGraphQLError : JValue → Except String GraphQLError
  | .null => .ok ⟨"", []⟩
  | .obj fs => decodeErrorFields fs ⟨"", []⟩
  | _ => .error "cannot unmarshal value into error struct"

/-- Decode the value of the `errors` key into the `errors` slice: `null`
leaves the nil slice, an array decodes elementwise, anything else is a type
error. -/
def decodeErrors : JValue → Except String Errors
  | .null => .ok []
  | .arr vs => vs.mapM decodeGraphQLError
  | _ => .error "cannot unmarshal value into field Errors of type errors"

/-- Decode the keys of the top-level response object into the envelope
struct, in order (Go processes keys sequentially, so a later duplicate key
overwrites an earlier one); unknown keys are ignored, matching is
case-insensitive. -/
def decodeEnvelopeFields : List (String × JValue) → Envelope →
    Except String Envelope
  | [], env => .ok env
  | (k, v) :: rest, env =>
    if lowerKey k = "data" then
      decodeEnvelopeFields rest { env with Data := rawMessagePtr v }
    else if lowerKey k = "errors" then do
      let es ← decodeErrors v
      decodeEnvelopeFields rest { env with Errors := es }
    else decodeEnvelopeFields rest env

/-- Decode a JSON value into the envelope struct.  Go: JSON `null` into a
struct is a no-op (zero envelope), a non-object non-null value is a type
error. -/
def decodeEnvelope : JValue → Except String Envelope
  | .null => .ok ⟨none, []⟩
  | .obj fs => decodeEnvelopeFields fs ⟨none, []⟩
  | _ => .error "cannot unmarshal value into envelope struct"

/-- `json.NewDecoder(resp.Body).Decode(&out)`: fails on syntactically
invalid JSON, otherwise decodes the value into the envelope struct. -/
def parseEnvelope : Body → Except String Envelope
  | none => .error "invalid JSON in response body"
  | some v => decodeEnvelope v

/-- The outbound HTTP request built by `Do` (lines 50-66). -/
structure Request where
  method : String
  url : String
  body : JValue
  contentType : String

/-- Build the outbound request: `http.MethodPost`, JSON body from the
anonymous struct `{ Query string `json:"query"`;
Variables map[string]any `json:"variables,omitempty"` }` — the `variables`
key is omitted when the map is empty — and the `Content-Type` header set to
`application/json`. -/
def buildRequest (url query : String) (vars : List (String × JValue)) :
    Request :=
  { method := "POST"
    url := url
    body := .obj (("query", .str query) ::
      (if vars.isEmpty then [] else [("variables", .obj vars)]))
    contentType := "application/json" }

/-- Field lookup in a JSON object (the first binding, for reading the
request body in theorems; `buildRequest` never emits duplicate keys). -/
def JValue.field : JValue → String → Option JValue
  | .obj fs, k => fs.lookup k
  | _, _ => none

/-- Result of one transport exchange (`c.httpClient.Do(req)`): either a
transport-level failure or a response with a status code, a status text
(Go `resp.Status`) and a raw body. -/
inductive TransportResult where
  | failure (msg : String) : TransportResult
  | response (statusCode : Nat) (status : String) (body : Body) :
      TransportResult

/-- The outcome `Do` reports to its caller, one constructor per `return`
site of lines 67-101.  `success` is the `return nil` at line 101;
`protocolErrors` is `return out.Errors` at line 99 (the aggregate error
carries the full decoded list). -/
inductive DoOutcome (ε : Type) where
  | transportError (msg : String) : DoOutcome ε
  | statusError (status : String) (body : Body) : DoOutcome ε
  | envelopeError (msg : String) : DoOutcome ε
  | decodeError (e : ε) : DoOutcome ε
  | protocolErrors (errs : Errors) : DoOutcome ε
  | success : DoOutcome ε

/-- Lines 98-101 of `Client.Do`: return `out.Errors` (the aggregate,
carrying the full decoded list) when non-empty, nil (`success`) otherwise.
`unmarshal` / `mergeUnmarshal` below stand for `jsonutil.UnmarshalGraphQL` /
`jsonutil.MergeUnmarshalGraphQL`; each returns the destination shape after
the (in-place, possibly partial) write together with an optional error.
Every stage returns the final destination shape with the reported outcome. -/
def finishErrors {σ ε : Type} (res : σ) (errs : Errors) : σ × DoOutcome ε :=
  if errs.length > 0 then (res, .protocolErrors errs) else (res, .success)

/-- Lines 86-97 of `Client.Do`: when the `Data` pointer is non-nil, run the
decoder selected by `merge` on the raw payload; a decode error is returned
as is (the protocol errors are never consulted on that path), otherwise fall
through to the `len(out.Errors)` check. -/
def decodePayload {σ ε : Type} (unmarshal mergeUnmarshal : JValue → σ → σ × Option ε)
    (merge : Bool) (res : σ) (env : Envelope) : σ × DoOutcome ε :=
  match env.Data with
  | some d =>
    match (if merge then mergeUnmarshal else unmarshal) d res with
    | (res', some e) => (res', .decodeError e)
    | (res', none) => finishErrors res' env.Errors
  | none => finishErrors res env.Errors

/-- Lines 76-101 of `Client.Do` assembled: decode the body into the
envelope struct, then run the payload and protocol-error steps. -/
def handleEnvelope {σ ε : Type} (unmarshal mergeUnmarshal : JValue → σ → σ × Option ε)
    (merge : Bool) (res : σ) (body : Body) : σ × DoOutcome ε :=
  match parseEnvelope body with
  | .error m => (res, .envelopeError m)
  | .ok env => decodePayload unmarshal mergeUnmarshal merge res env

/-- Lines 67-101 of `Client.Do`, from the transport result on: the
`resp.StatusCode != http.StatusOK` check (a non-200 status returns the
status text and the raw body without touching the envelope), then the
envelope stage `handleEnvelope`. -/
def processResponse {σ ε : Type} (unmarshal mergeUnmarshal : JValue → σ → σ × Option ε)
    (merge : Bool) (res : σ) : TransportResult → σ × DoOutcome ε
  | .failure m => (res, .transportError m)
  | .response code status body =>
    if code ≠ 200 then
      (res, .statusError status body)
    else
      handleEnvelope unmarshal mergeUnmarshal merge res body

/-- `Client.Do` over a trace of available transport responses: the request
is built once and only the first response of the trace is consumed (the
returned `Nat` counts transport invocations).  An empty trace models a
transport that cannot be reached at all. -/
def clientDo {σ ε : Type} (unmarshal mergeUnmarshal : JValue → σ → σ × Option ε)
    (url query : String) (vars : List (String × JValue)) (merge : Bool)
    (res : σ) (trace : List TransportResult) :
    Request × ((σ × DoOutcome ε) × Nat) :=
  (buildRequest url query vars,
    match trace with
    | [] => ((res, .transportError "transport unavailable"), 0)
    | t :: _ => (processResponse unmarshal mergeUnmarshal merge res t, 1))

/-- `Client.Query` (lines 35-38): builds the document with `constructQuery`
(from `internal/queryconstruction`, abstract here) and calls `Do` with
`merge = false` and the destination shape as both shape source and
destination. -/
def clientQuery {σ ε : Type} (constructQuery : σ → List (String × JValue) → String)
    (unmarshal mergeUnmarshal : JValue → σ → σ × Option ε) (url : String)
    (q : σ) (vars : List (String × JValue))
    (trace : List TransportResult) :
    Request × ((σ × DoOutcome ε) × Nat) :=
  clientDo unmarshal mergeUnmarshal url (constructQuery q vars)
    vars false q trace

/-- `Client.Mutate` (lines 43-46): same as `Query` with `constructMutation`. -/
def clientMutate {σ ε : Type} (constructMutation : σ → List (String × JValue) → String)
    (unmarshal mergeUnmarshal : JValue → σ → σ × Option ε) (url : String)
    (m : σ) (vars : List (String × JValue))
    (trace : List TransportResult) :
    Request × ((σ × DoOutcome ε) × Nat) :=
  clientDo unmarshal mergeUnmarshal url (constructMutation m vars)
    vars false m trace

/-! Concrete instances used to exercise the abstract payload decoders:
the destination shape is `Option JValue` (the last successfully decoded
payload, `none` when never written) and decode errors are strings. -/

/-- A replace-mode decoder that succeeds and stores the payload. -/
def replaceStub : JValue → Option JValue → Option JValue × Option String :=
  fun d _ => (some d, none)

/-- A decoder that always fails (a `jsonutil` decode error), leaving the
destination as it was. -/
def failStub : JValue → Option JValue → Option JValue × Option String :=
  fun _ s => (s, some "jsonutil: decode failure")

/-- Response body of a partial success: non-null `data` together with two
protocol errors. -/
def mixedBody : JValue :=
  .obj [("data", .obj [("viewer", .str "octocat")]),
        ("errors", .arr [.obj [("message", .str "x")],
                         .obj [("message", .str "y")]])]

/-- The envelope `mixedBody` decodes to. -/
def mixedEnv : Envelope :=
  ⟨some (.obj [("viewer", .str "octocat")]), [⟨"x", []⟩, ⟨"y", []⟩]⟩

/-- Response body `{"errors":[{"message":"x"},{"message":"y"}]}` (no data). -/
def twoErrorsBody : JValue :=
  .obj [("errors", .arr [.obj [("message", .str "x")],
                         .obj [("message", .str "y")]])]

/-- Response body `{"data": null, "errors": [...]}`: explicit JSON null
data alongside one protocol error. -/
def nullDataBody : JValue :=
  .obj [("data", .null),
        ("errors", .arr [.obj [("message", .str "boom")]])]


/-! Helper lemmas about the stages of `Client.Do`, shared by the claim
theorems below. -/

/-- A 200 status proceeds to the envelope stage (lines 72-75 fall through). -/
theorem processResponse_200 {σ ε : Type}
    (unm mrg : JValue → σ → σ × Option ε) (merge : Bool) (res : σ)
    (st : String) (body : Body) :
    processResponse unm mrg merge res (.response 200 st body)
      = handleEnvelope unm mrg merge res body := rfl

/-- Any status other than 200 returns the status error (line 74), carrying
the status text and the raw body. -/
theorem processResponse_not_200 {σ ε : Type}
    (unm mrg : JValue → σ → σ × Option ε) (merge : Bool) (res : σ)
    (code : Nat) (st : String) (body : Body) (hc : code ≠ 200) :
    processResponse unm mrg merge res (.response code st body)
      = (res, .statusError st body) := by
  simp [processResponse, hc]

theorem handleEnvelope_error {σ ε : Type}
    (unm mrg : JValue → σ → σ × Option ε) (merge : Bool) (res : σ)
    (body : Body) (m : String) (hp : parseEnvelope body = .error m) :
    handleEnvelope unm mrg merge res body = (res, .envelopeError m) := by
  simp [handleEnvelope, hp]

theorem handleEnvelope_ok {σ ε : Type}
    (unm mrg : JValue → σ → σ × Option ε) (merge : Bool) (res : σ)
    (body : Body) (env : Envelope) (hp : parseEnvelope body = .ok env) :
    handleEnvelope unm mrg merge res body
      = decodePayload unm mrg merge res env := by
  simp [handleEnvelope, hp]

theorem decodePayload_none {σ ε : Type}
    (unm mrg : JValue → σ → σ × Option ε) (merge : Bool) (res : σ)
    (env : Envelope) (hd : env.Data = none) :
    decodePayload unm mrg merge res env = finishErrors res env.Errors := by
  simp [decodePayload, hd]

theorem decodePayload_decode_err {σ ε : Type}
    (unm mrg : JValue → σ → σ × Option ε) (merge : Bool) (res res' : σ)
    (env : Envelope) (d : JValue) (e : ε) (hd : env.Data = some d)
    (hu : (if merge then mrg else unm) d res = (res', some e)) :
    decodePayload unm mrg merge res env = (res', .decodeError e) := by
  simp [decodePayload, hd, hu]

theorem decodePayload_decode_ok {σ ε : Type}
    (unm mrg : JValue → σ → σ × Option ε) (merge : Bool) (res res' : σ)
    (env : Envelope) (d : JValue) (hd : env.Data = some d)
    (hu : (if merge then mrg else unm) d res = (res', none)) :
    decodePayload unm mrg merge res env = finishErrors res' env.Errors := by
  simp [decodePayload, hd, hu]

theorem finishErrors_ne_nil {σ ε : Type} (res : σ) (errs : Errors)
    (h : errs ≠ []) :
    finishErrors res errs = ((res, .protocolErrors errs) : σ × DoOutcome ε) := by
  simp [finishErrors, List.length_pos.mpr h]

theorem finishErrors_nil {σ ε : Type} (res : σ) :
    finishErrors res [] = ((res, .success) : σ × DoOutcome ε) := rfl

/-- Inversion of the aggregate-error outcome: `Do` returns
`protocolErrors errs` only for a 200-status response whose body decodes to
an envelope with `errs` as its (non-empty) errors list, and only when the
payload decode — if `Data` was non-nil — succeeded. -/
theorem protocolErrors_inv {σ ε : Type}
    (unm mrg : JValue → σ → σ × Option ε) (merge : Bool) (res : σ)
    (tr : TransportResult) (s : σ) (errs : Errors)
    (h : processResponse unm mrg merge res tr = (s, .protocolErrors errs)) :
    ∃ (code : Nat) (st : String) (body : Body) (env : Envelope),
      tr = .response code st body ∧ code = 200 ∧
      parseEnvelope body = .ok env ∧ errs = env.Errors ∧ env.Errors ≠ [] ∧
      ((env.Data = none ∧ s = res) ∨
        ∃ d, env.Data = some d ∧
          (if merge then mrg else unm) d res = (s, none)) := by
  cases tr with
  | failure m => simp [processResponse] at h
  | response code st body =>
    by_cases hc : code ≠ 200
    · rw [processResponse_not_200 unm mrg merge res code st body hc] at h
      simp at h
    · push_neg at hc
      subst hc
      rw [processResponse_200] at h
      cases hp : parseEnvelope body with
      | error m =>
        rw [handleEnvelope_error unm mrg merge res body m hp] at h
        simp at h
      | ok env =>
        rw [handleEnvelope_ok unm mrg merge res body env hp] at h
        refine ⟨200, st, body, env, rfl, rfl, hp, ?_⟩
        cases hd : env.Data with
        | none =>
          rw [decodePayload_none unm mrg merge res env hd] at h
          cases herrs : env.Errors with
          | nil =>
            rw [herrs, finishErrors_nil] at h
            simp at h
          | cons e es =>
            rw [herrs, finishErrors_ne_nil res (e :: es) (by simp)] at h
            injection h with h1 h2
            injection h2 with h3
            exact ⟨herrs ▸ h3.symm, by simp [herrs], .inl ⟨rfl, h1.symm⟩⟩
        | some d =>
          cases hu : (if merge then mrg else unm) d res with
          | mk r' e? =>
            cases e? with
            | some e =>
              rw [decodePayload_decode_err unm mrg merge res r' env d e hd hu] at h
              simp at h
            | none =>
              rw [decodePayload_decode_ok unm mrg merge res r' env d hd hu] at h
              cases herrs : env.Errors with
              | nil =>
                rw [herrs, finishErrors_nil] at h
                simp at h
              | cons e es =>
                rw [herrs, finishErrors_ne_nil r' (e :: es) (by simp)] at h
                injection h with h1 h2
                injection h2 with h3
                exact ⟨herrs ▸ h3.symm, by simp [herrs],
                  .inr ⟨d, rfl, by rw [hu, h1]⟩⟩

/-- `processResponse` depends on the two payload decoders only through the
one selected by the `merge` flag. -/
theorem processResponse_selected_eq {σ ε : Type}
    (unm mrg unm' mrg' : JValue → σ → σ × Option ε) (merge merge' : Bool)
    (res : σ) (tr : TransportResult)
    (h : (if merge then mrg else unm) = (if merge' then mrg' else unm')) :
    processResponse unm mrg merge res tr
      = processResponse unm' mrg' merge' res tr := by
  cases tr with
  | failure m => rfl
  | response code st body =>
    by_cases hc : code ≠ 200
    · rw [processResponse_not_200 unm mrg merge res code st body hc,
        processResponse_not_200 unm' mrg' merge' res code st body hc]
    · push_neg at hc
      subst hc
      rw [processResponse_200, processResponse_200]
      cases hp : parseEnvelope body with
      | error m =>
        rw [handleEnvelope_error unm mrg merge res body m hp,
          handleEnvelope_error unm' mrg' merge' res body m hp]
      | ok env =>
        rw [handleEnvelope_ok unm mrg merge res body env hp,
          handleEnvelope_ok unm' mrg' merge' res body env hp]
        simp only [decodePayload, h]

/-! The claim theorems. -/

/-- C1: for every response envelope in which the data payload is present
(non-null) and the errors list is non-empty, `Do` decodes the data payload
into the destination shape (hypothesis `hdec` states that the selected
payload decoder populates the shape successfully, producing `res'`) and also
returns the non-nil aggregate error built from the full errors list, so the
caller observes both the populated shape `res'` and the error. -/
theorem C1_data_and_errors_both_surfaced {σ ε : Type}
    (unm mrg : JValue → σ → σ × Option ε) (merge : Bool) (res res' : σ)
    (st : String) (body : Body) (env : Envelope) (d : JValue)
    (hparse : parseEnvelope body = .ok env) (hdata : env.Data = some d)
    (herrs : env.Errors ≠ [])
    (hdec : (if merge then mrg else unm) d res = (res', none)) :
    processResponse unm mrg merge res (.response 200 st body)
      = (res', .protocolErrors env.Errors) := by
  rw [processResponse_200, handleEnvelope_ok unm mrg merge res body env hparse,
    decodePayload_decode_ok unm mrg merge res res' env d hdata hdec,
    finishErrors_ne_nil res' env.Errors herrs]

/-- C1 witness: the partial-success body with payload
`{"viewer":"octocat"}` and errors `x`, `y`, decoded in replace mode by a
succeeding decoder, yields both the populated shape and the aggregate. -/
theorem C1_witness :
    processResponse replaceStub failStub false none
      (.response 200 "200 OK" (some mixedBody))
      = (some (.obj [("viewer", .str "octocat")]),
         .protocolErrors [⟨"x", []⟩, ⟨"y", []⟩]) :=
  C1_data_and_errors_both_surfaced replaceStub failStub false none
    (some (.obj [("viewer", .str "octocat")])) "200 OK" (some mixedBody)
    mixedEnv (.obj [("viewer", .str "octocat")]) rfl rfl (by decide) rfl

/-- C2: the aggregate error's primary message (its `Error` method) is the
first list element's message; the aggregate returned by `Do` carries the
decoded errors list unchanged; and decoding the envelope
`{"errors":[{"message":"x"},{"message":"y"}]}` yields the aggregate with
primary message `"x"` and a structured list of length 2. -/
theorem C2_aggregate_message_and_list {σ ε : Type}
    (unm mrg : JValue → σ → σ × Option ε) (merge : Bool) (res : σ)
    (st : String) :
    (∀ (e : GraphQLError) (es : List GraphQLError),
      Errors.Error (e :: es) = some e.Message) ∧
    (∀ (body : Body) (env : Envelope) (s : σ) (errs : Errors),
      parseEnvelope body = .ok env →
      processResponse unm mrg merge res (.response 200 st body)
        = (s, .protocolErrors errs) →
      errs = env.Errors) ∧
    processResponse unm mrg merge res (.response 200 st (some twoErrorsBody))
      = (res, .protocolErrors [⟨"x", []⟩, ⟨"y", []⟩]) ∧
    Errors.Error [⟨"x", []⟩, ⟨"y", []⟩] = some "x" ∧
    ([⟨"x", []⟩, ⟨"y", []⟩] : Errors).length = 2 := by
  refine ⟨fun e es => rfl, ?_, rfl, rfl, rfl⟩
  intro body env s errs hparse h
  obtain ⟨code, st', body', env', heq, -, hp, herrs, -, -⟩ :=
    protocolErrors_inv unm mrg merge res _ s errs h
  injection heq with h1 h2 h3
  subst h3
  rw [hparse] at hp
  injection hp with hp
  rw [herrs, hp]

/-- C2 witness: for the concrete envelope with errors `x`, `y`, the list
carried by the aggregate is the decoded envelope's list, and the primary
message is `"x"`. -/
theorem C2_witness :
    ([⟨"x", []⟩, ⟨"y", []⟩] : Errors)
      = (⟨none, [⟨"x", []⟩, ⟨"y", []⟩]⟩ : Envelope).Errors ∧
    Errors.Error [⟨"x", []⟩, ⟨"y", []⟩] = some "x" := by
  have h := C2_aggregate_message_and_list replaceStub replaceStub false
    (none : Option JValue) "200 OK"
  exact ⟨h.2.1 (some twoErrorsBody) ⟨none, [⟨"x", []⟩, ⟨"y", []⟩]⟩ none
    [⟨"x", []⟩, ⟨"y", []⟩] rfl h.2.2.1, h.2.2.2.1⟩

/-- C3: an empty error list never produces an aggregate: a response whose
decoded envelope has an empty errors list and whose data payload (if
present) decodes successfully makes `Do` return nil (`success`); and
whenever `Do` does return the aggregate, its list is non-empty, so the
`Error` method's indexing of the first element cannot fail. -/
theorem C3_empty_errors_never_aggregate {σ ε : Type}
    (unm mrg : JValue → σ → σ × Option ε) (merge : Bool) (res res' : σ)
    (st : String) (body : Body) (env : Envelope) :
    (parseEnvelope body = .ok env → env.Errors = [] → env.Data = none →
      processResponse unm mrg merge res (.response 200 st body)
        = (res, .success)) ∧
    (∀ d : JValue, parseEnvelope body = .ok env → env.Errors = [] →
      env.Data = some d →
      (if merge then mrg else unm) d res = (res', none) →
      processResponse unm mrg merge res (.response 200 st body)
        = (res', .success)) ∧
    (∀ (tr : TransportResult) (s : σ) (errs : Errors),
      processResponse unm mrg merge res tr = (s, .protocolErrors errs) →
      errs ≠ [] ∧ (Errors.Error errs).isSome = true) := by
  refine ⟨?_, ?_, ?_⟩
  · intro hparse hnil hdata
    rw [processResponse_200, handleEnvelope_ok unm mrg merge res body env hparse,
      decodePayload_none unm mrg merge res env hdata, hnil, finishErrors_nil]
  · intro d hparse hnil hdata hdec
    rw [processResponse_200, handleEnvelope_ok unm mrg merge res body env hparse,
      decodePayload_decode_ok unm mrg merge res res' env d hdata hdec, hnil,
      finishErrors_nil]
  · intro tr s errs h
    obtain ⟨code, st', body', env', -, -, -, herrs, hne, -⟩ :=
      protocolErrors_inv unm mrg merge res tr s errs h
    rw [herrs]
    refine ⟨hne, ?_⟩
    cases henv : env'.Errors with
    | nil => exact absurd henv hne
    | cons e es => rfl

/-- C3 witness: an envelope with no errors and no data returns nil; one with
no errors and a successfully decoded payload returns nil; and a concrete
aggregate outcome has a non-empty list on which `Error` succeeds. -/
theorem C3_witness :
    processResponse replaceStub replaceStub false (none : Option JValue)
      (.response 200 "200 OK" (some (.obj [])))
      = (none, .success) ∧
    processResponse replaceStub replaceStub false (none : Option JValue)
      (.response 200 "200 OK" (some (.obj [("data", .num 7)])))
      = (some (.num 7), .success) ∧
    ([⟨"x", []⟩, ⟨"y", []⟩] : Errors) ≠ [] ∧
    (Errors.Error [⟨"x", []⟩, ⟨"y", []⟩]).isSome = true := by
  refine ⟨?_, ?_, ?_⟩
  · exact (C3_empty_errors_never_aggregate replaceStub replaceStub false none
      none "200 OK" (some (.obj [])) ⟨none, []⟩).1 rfl rfl rfl
  · exact (C3_empty_errors_never_aggregate replaceStub replaceStub false none
      (some (.num 7)) "200 OK" (some (.obj [("data", .num 7)]))
      ⟨some (.num 7), []⟩).2.1 (.num 7) rfl rfl rfl rfl
  · exact (C3_empty_errors_never_aggregate replaceStub replaceStub false none
      none "200 OK" (some twoErrorsBody) ⟨none, [⟨"x", []⟩, ⟨"y", []⟩]⟩).2.2
      (.response 200 "200 OK" (some twoErrorsBody)) none
      [⟨"x", []⟩, ⟨"y", []⟩] rfl

/-- C4 counterexample: HTTP 201 is a 2xx success status, yet `Do` reports a
status error carrying the status text and the raw body instead of
proceeding to envelope decoding — the envelope stage on the same body would
have produced the partial-success result, not a status error. -/
theorem C4_counterexample :
    processResponse replaceStub replaceStub false none
      (.response 201 "201 Created" (some mixedBody))
      = (none, .statusError "201 Created" (some mixedBody)) ∧
    handleEnvelope replaceStub replaceStub false none (some mixedBody)
      = (some (.obj [("viewer", .str "octocat")]),
         .protocolErrors [⟨"x", []⟩, ⟨"y", []⟩]) ∧
    (DoOutcome.statusError "201 Created" (some mixedBody) : DoOutcome String)
      ≠ .protocolErrors [⟨"x", []⟩, ⟨"y", []⟩] :=
  ⟨rfl, rfl, fun h => nomatch h⟩

/-- C4 (amended): for every transport response whose HTTP status is not
exactly 200, `Do` returns an error carrying the status text and the raw
response body without attempting envelope decoding; for status 200 it
proceeds to envelope decoding.  (The source tests `!= http.StatusOK`, so
other 2xx statuses such as 201 are rejected, not decoded.) -/
theorem C4_status_gate {σ ε : Type}
    (unm mrg : JValue → σ → σ × Option ε) (merge : Bool) (res : σ)
    (code : Nat) (st : String) (body : Body) :
    (code ≠ 200 → processResponse unm mrg merge res (.response code st body)
      = (res, .statusError st body)) ∧
    (code = 200 → processResponse unm mrg merge res (.response code st body)
      = handleEnvelope unm mrg merge res body) := by
  refine ⟨fun h => processResponse_not_200 unm mrg merge res code st body h,
    fun h => ?_⟩
  subst h
  rfl

/-- C4 witness: a 404 response is reported as a status error with status
text and raw body; a 200 response reaches the envelope stage. -/
theorem C4_witness :
    processResponse replaceStub replaceStub false (none : Option JValue)
      (.response 404 "404 Not Found" (some mixedBody))
      = (none, .statusError "404 Not Found" (some mixedBody)) ∧
    processResponse replaceStub replaceStub false (none : Option JValue)
      (.response 200 "200 OK" (some mixedBody))
      = handleEnvelope replaceStub replaceStub false none (some mixedBody) :=
  ⟨(C4_status_gate replaceStub replaceStub false none 404 "404 Not Found"
      (some mixedBody)).1 (by decide),
   (C4_status_gate replaceStub replaceStub false none 200 "200 OK"
      (some mixedBody)).2 rfl⟩

/-- C5: a response body whose outer JSON cannot be decoded into the
envelope structure makes `Do` fail with the envelope-decode error, leaving
the destination shape untouched; a well-formed outer object is accepted at
this stage whatever JSON value sits under `data` (so a malformed inner
payload is not detected here). -/
theorem C5_outer_envelope_errors {σ ε : Type}
    (unm mrg : JValue → σ → σ × Option ε) (merge : Bool) (res : σ)
    (st : String) :
    (∀ (body : Body) (m : String), parseEnvelope body = .error m →
      processResponse unm mrg merge res (.response 200 st body)
        = (res, .envelopeError m)) ∧
    (∀ d : JValue, parseEnvelope (some (.obj [("data", d)]))
      = .ok ⟨rawMessagePtr d, []⟩) ∧
    (∀ (d : JValue) (es : List JValue) (errs : Errors),
      decodeErrors (.arr es) = .ok errs →
      parseEnvelope (some (.obj [("data", d), ("errors", .arr es)]))
        = .ok ⟨rawMessagePtr d, errs⟩) := by
  refine ⟨?_, fun d => rfl, ?_⟩
  · intro body m hp
    rw [processResponse_200, handleEnvelope_error unm mrg merge res body m hp]
  · intro d es errs h
    show (decodeErrors (.arr es)).bind
      (fun es' => decodeEnvelopeFields [] ⟨rawMessagePtr d, es'⟩)
      = .ok ⟨rawMessagePtr d, errs⟩
    rw [h]
    rfl

/-- C5 witness: syntactically invalid JSON fails at the envelope stage with
the shape untouched, while a well-formed outer object whose `data` value is
a bare number (malformed for any object-shaped destination) still parses. -/
theorem C5_witness :
    processResponse replaceStub replaceStub false (none : Option JValue)
      (.response 200 "200 OK" none)
      = (none, .envelopeError "invalid JSON in response body") ∧
    parseEnvelope (some (.obj [("data", .num 42), ("errors", .arr [])]))
      = .ok ⟨some (.num 42), []⟩ :=
  ⟨(C5_outer_envelope_errors replaceStub replaceStub false none "200 OK").1
      none "invalid JSON in response body" rfl,
   (C5_outer_envelope_errors replaceStub replaceStub false
      (none : Option JValue) "200 OK" (ε := String)).2.2 (.num 42) [] [] rfl⟩

/-- C6: every outbound request is an HTTP POST with Content-Type
`application/json`, whose JSON body holds the document text under the
`query` key and the variable bindings under the `variables` key, the
latter omitted entirely when the binding set is empty. -/
theorem C6_request_wire_format {σ ε : Type}
    (unm mrg : JValue → σ → σ × Option ε) (merge : Bool) (res : σ)
    (url query : String) (vars : List (String × JValue))
    (trace : List TransportResult) :
    (clientDo unm mrg url query vars merge res trace).1
      = buildRequest url query vars ∧
    (buildRequest url query vars).method = "POST" ∧
    (buildRequest url query vars).contentType = "application/json" ∧
    (buildRequest url query vars).body.field "query" = some (.str query) ∧
    (vars = [] →
      (buildRequest url query vars).body.field "variables" = none) ∧
    (vars ≠ [] →
      (buildRequest url query vars).body.field "variables"
        = some (.obj vars)) := by
  refine ⟨rfl, rfl, rfl, rfl, fun h => ?_, fun h => ?_⟩
  · subst h; rfl
  · cases vars with
    | nil => exact absurd rfl h
    | cons v vs => rfl

/-- C6 witness: with no bindings the `variables` key is absent from the
body; with one binding it carries the binding object. -/
theorem C6_witness :
    (buildRequest "https://example.com/graphql" "{viewer{login}}" []).body.field
      "variables" = none ∧
    (buildRequest "https://example.com/graphql" "{viewer{login}}"
      [("userId", .num 42)]).body.field "variables"
      = some (.obj [("userId", .num 42)]) :=
  ⟨(C6_request_wire_format replaceStub replaceStub false
      (none : Option JValue) "https://example.com/graphql" "{viewer{login}}"
      [] []).2.2.2.2.1 rfl,
   (C6_request_wire_format replaceStub replaceStub false
      (none : Option JValue) "https://example.com/graphql" "{viewer{login}}"
      [("userId", .num 42)] []).2.2.2.2.2 (fun h => nomatch h)⟩

/-- C7: no operation is retried internally — for `Do`, `Query` and `Mutate`
the transport is invoked at most once, and only the first response of any
trace of available transport responses is ever consumed, so every failure
is surfaced immediately without a second attempt. -/
theorem C7_no_retry {σ ε : Type}
    (cq cm : σ → List (String × JValue) → String)
    (unm mrg : JValue → σ → σ × Option ε) (url query : String)
    (q m res : σ) (vars : List (String × JValue)) (merge : Bool)
    (t : TransportResult) (rest trace : List TransportResult) :
    clientDo unm mrg url query vars merge res (t :: rest)
      = clientDo unm mrg url query vars merge res [t] ∧
    (clientDo unm mrg url query vars merge res trace).2.2 ≤ 1 ∧
    (clientQuery cq unm mrg url q vars trace).2.2 ≤ 1 ∧
    (clientMutate cm unm mrg url m vars trace).2.2 ≤ 1 := by
  refine ⟨rfl, ?_, ?_, ?_⟩ <;>
    cases trace <;> simp [clientDo, clientQuery, clientMutate]

/-- C8: `Query` and `Mutate` both call `Do` with `merge = false`, so their
results never depend on the merge decoder; `Do` with `merge = true` never
depends on the replace decoder, and coincides with a replace-mode run whose
replace decoder is the merge decoder — merge mode is reachable only through
`Do` itself. -/
theorem C8_entry_points_replace_mode {σ ε : Type}
    (cq cm : σ → List (String × JValue) → String)
    (unm unm' mrg mrg' : JValue → σ → σ × Option ε) (url query : String)
    (q m res : σ) (vars : List (String × JValue))
    (trace : List TransportResult) :
    clientQuery cq unm mrg url q vars trace
      = clientDo unm mrg url (cq q vars) vars false q trace ∧
    clientMutate cm unm mrg url m vars trace
      = clientDo unm mrg url (cm m vars) vars false m trace ∧
    clientQuery cq unm mrg url q vars trace
      = clientQuery cq unm mrg' url q vars trace ∧
    clientMutate cm unm mrg url m vars trace
      = clientMutate cm unm mrg' url m vars trace ∧
    clientDo unm mrg url query vars true res trace
      = clientDo unm' mrg url query vars true res trace ∧
    clientDo unm mrg url query vars true res trace
      = clientDo mrg mrg' url query vars false res trace := by
  refine ⟨rfl, rfl, ?_, ?_, ?_, ?_⟩ <;>
  · cases trace with
    | nil => rfl
    | cons t ts =>
      simp only [clientQuery, clientMutate, clientDo, Prod.mk.injEq]
      exact ⟨trivial, processResponse_selected_eq _ _ _ _ _ _ _ t rfl, trivial⟩

/-- C9: when the data payload is present but the selected payload decoder
fails, `Do` returns the decode error (with whatever the decoder left in the
destination) and the server-reported protocol errors are discarded, even if
non-empty; conversely the aggregate is returned only when the payload
decode (if performed at all) succeeded. -/
theorem C9_decode_error_discards_protocol_errors {σ ε : Type}
    (unm mrg : JValue → σ → σ × Option ε) (merge : Bool) (res res' : σ)
    (st : String) (body : Body) (env : Envelope) (d : JValue) (e : ε) :
    (parseEnvelope body = .ok env → env.Data = some d →
      (if merge then mrg else unm) d res = (res', some e) →
      processResponse unm mrg merge res (.response 200 st body)
        = (res', .decodeError e)) ∧
    (∀ (s : σ) (errs : Errors),
      parseEnvelope body = .ok env → env.Data = some d →
      processResponse unm mrg merge res (.response 200 st body)
        = (s, .protocolErrors errs) →
      (if merge then mrg else unm) d res = (s, none)) := by
  constructor
  · intro hparse hdata hdec
    rw [processResponse_200,
      handleEnvelope_ok unm mrg merge res body env hparse,
      decodePayload_decode_err unm mrg merge res res' env d e hdata hdec]
  · intro s errs hparse hdata h
    obtain ⟨code, st', body', env', heq, -, hp, -, -, hor⟩ :=
      protocolErrors_inv unm mrg merge res _ s errs h
    injection heq with h1 h2 h3
    subst h3
    rw [hparse] at hp
    injection hp with hp
    subst hp
    rcases hor with ⟨hnone, -⟩ | ⟨d', hd', hu⟩
    · rw [hdata] at hnone; exact absurd hnone (by simp)
    · rw [hdata] at hd'
      injection hd' with hd'
      subst hd'
      exact hu

/-- C9 witness: the partial-success body again, but with a failing replace
decoder — `Do` reports the decode error, not the two protocol errors. -/
theorem C9_witness :
    processResponse failStub replaceStub false none
      (.response 200 "200 OK" (some mixedBody))
      = (none, .decodeError "jsonutil: decode failure") :=
  (C9_decode_error_discards_protocol_errors failStub replaceStub false none
    none "200 OK" (some mixedBody) mixedEnv
    (.obj [("viewer", .str "octocat")]) "jsonutil: decode failure").1
    rfl rfl rfl

/-- C10: when the envelope's data payload is absent or JSON null, `Do`
performs no payload decoding at all — the destination shape is returned
unchanged and the result does not depend on either decoder or on the mode —
and `Do` returns the aggregate when the errors list is non-empty and nil
otherwise. -/
theorem C10_nil_data_leaves_shape {σ ε : Type}
    (unm mrg unm' mrg' : JValue → σ → σ × Option ε) (merge merge' : Bool)
    (res : σ) (st : String) (body : Body) (env : Envelope)
    (hparse : parseEnvelope body = .ok env) (hdata : env.Data = none) :
    processResponse unm mrg merge res (.response 200 st body)
      = (res, if env.Errors.length > 0 then .protocolErrors env.Errors
              else .success) ∧
    processResponse unm mrg merge res (.response 200 st body)
      = processResponse unm' mrg' merge' res (.response 200 st body) := by
  constructor
  · rw [processResponse_200,
      handleEnvelope_ok unm mrg merge res body env hparse,
      decodePayload_none unm mrg merge res env hdata, finishErrors]
    by_cases hl : env.Errors.length > 0 <;> simp [hl]
  · rw [processResponse_200, processResponse_200,
      handleEnvelope_ok unm mrg merge res body env hparse,
      handleEnvelope_ok unm' mrg' merge' res body env hparse,
      decodePayload_none unm mrg merge res env hdata,
      decodePayload_none unm' mrg' merge' res env hdata]

/-- C10 witness: the body `{"data": null, "errors": [{"message":"boom"}]}`
— explicit JSON null data — leaves the shape untouched, returns the
aggregate, and yields the same result whatever decoders and mode are
supplied. -/
theorem C10_witness :
    processResponse replaceStub replaceStub true (none : Option JValue)
      (.response 200 "200 OK" (some nullDataBody))
      = (none, .protocolErrors [⟨"boom", []⟩]) ∧
    processResponse replaceStub replaceStub true (none : Option JValue)
      (.response 200 "200 OK" (some nullDataBody))
      = processResponse failStub failStub false none
          (.response 200 "200 OK" (some nullDataBody)) := by
  have h := C10_nil_data_leaves_shape replaceStub replaceStub failStub
    failStub true false (none : Option JValue) "200 OK" (some nullDataBody)
    ⟨none, [⟨"boom", []⟩]⟩ rfl rfl
  exact ⟨h.1.trans (by rfl), h.2⟩
